import Mathlib

/-!
Verification of the reactive geospatial filter-and-camera engine of the
retail-store dashboard (HomeMap views).

The definitions below are shallow embeddings of the JavaScript source:
GeoJSON feature properties become a `StoreProps` structure (properties that
may be absent in a feature become `Option` fields, since JavaScript property
access yields `undefined` for them), the React filter state becomes
`FilterState`, and the memoized derivations (`filteredGeo`, `filteredStores`,
`dcOptions`, `buildDcRollups`, `healthToColor`, `fitToCurrent`, the
load/zoom handlers) become pure Lean functions.  Numeric JS values are
modelled as rationals.
-/

namespace Metrics

/-- Properties of one Store feature as produced by `genstores.js` and read by
the HomeMap variants.  `country`, `state`, `assigned` and `is_assigned` are
`Option`s because a JS property read may yield `undefined`; the generator
writes `country`, `state`, `division`, `dc_id`, `assigned`, `health` and never
`is_assigned`. -/
structure StoreProps where
  store_id : Nat
  country : Option String
  state : Option String
  division : String
  dc_id : String
  assigned : Option Bool
  is_assigned : Option Bool
  health : ℚ
deriving DecidableEq, Repr

/-- The filter selection state held by the HomeMap components:
`division` ∈ {All, Northern, Southern, Eastern, Midwestern},
`dc` is "ALL" or a DC id, plus the assigned-only toggle. -/
structure FilterState where
  division : String
  dc : String
  onlyAssigned : Bool
deriving DecidableEq, Repr

/-- Country guard of `filteredGeo` in `src/src/pages/HomeMap.jsx`
(line 31): `if (p.country && p.country !== 'USA') return false;`.
A missing or empty (falsy) country does not reject; a present non-"USA"
country does. -/
def countryRejectHome : Option String → Bool
  | none => false
  | some s => decide (s ≠ "" ∧ s ≠ "USA")

/-- The filter predicate of `filteredGeo` in `src/src/pages/HomeMap.jsx`
(lines 27-43), with the early-`false` returns in source order:
country, division, dc, assignment (which reads `p.is_assigned`). -/
def keepHome (fs : FilterState) (f : StoreProps) : Bool :=
  if countryRejectHome f.country then false
  else if fs.division ≠ "All" ∧ f.division ≠ fs.division then false
  else if fs.dc ≠ "ALL" ∧ f.dc_id ≠ fs.dc then false
  else if fs.onlyAssigned = true ∧ f.is_assigned ≠ some true then false
  else true

/-- `filteredGeo` of `src/src/pages/HomeMap.jsx`: the features of the store
dataset passing `keepHome`. -/
def filteredGeoHome (ds : List StoreProps) (fs : FilterState) : List StoreProps :=
  ds.filter (keepHome fs)

/-- The filter predicate of `filteredStores` in `src/unnamed/part_006`
(lines 36-46): `if (p.country !== 'USA') return false;` then division, dc and
`if (onlyAssigned && p.assigned !== true) return false;`. -/
def keepPart006 (fs : FilterState) (f : StoreProps) : Bool :=
  if f.country ≠ some "USA" then false
  else if fs.division ≠ "All" ∧ f.division ≠ fs.division then false
  else if fs.dc ≠ "ALL" ∧ f.dc_id ≠ fs.dc then false
  else if fs.onlyAssigned = true ∧ f.assigned ≠ some true then false
  else true

/-- `filteredStores` of `src/unnamed/part_006`. -/
def filteredStoresP6 (ds : List StoreProps) (fs : FilterState) : List StoreProps :=
  ds.filter (keepPart006 fs)

/-- Spec-side definition (from the claim wording, for comparison with the
source derivations): the three-predicate visibility condition
(division match OR division=All) AND (dc match OR dc=ALL) AND
(NOT onlyAssigned OR assigned=true). -/
def specThreePred (fs : FilterState) (f : StoreProps) : Prop :=
  (fs.division = "All" ∨ f.division = fs.division) ∧
  (fs.dc = "ALL" ∨ f.dc_id = fs.dc) ∧
  (fs.onlyAssigned = false ∨ f.assigned = some true)

instance (fs : FilterState) (f : StoreProps) : Decidable (specThreePred fs f) := by
  unfold specThreePred; infer_instance

/-- Spec-side variant of the three predicates reading `is_assigned`, the
field `src/src/pages/HomeMap.jsx` actually consults. -/
def specThreePredHome (fs : FilterState) (f : StoreProps) : Prop :=
  (fs.division = "All" ∨ f.division = fs.division) ∧
  (fs.dc = "ALL" ∨ f.dc_id = fs.dc) ∧
  (fs.onlyAssigned = false ∨ f.is_assigned = some true)

instance (fs : FilterState) (f : StoreProps) : Decidable (specThreePredHome fs f) := by
  unfold specThreePredHome; infer_instance

/-- `healthToColor` of `src/src/pages/HomeMap.jsx` line 13:
`h >= 80 ? '#28F7A0' : h >= 60 ? '#FFA54C' : '#FF5A72'`. -/
def healthToColor (h : ℚ) : String :=
  if h ≥ 80 then "#28F7A0" else if h ≥ 60 then "#FFA54C" else "#FF5A72"

/-- `onDivisionClick` of `src/Homemap.jsx` (lines 246-248):
`setDivision(div); setDcId("ALL");` — the only-assigned toggle is untouched. -/
def onDivisionClick (s : FilterState) (d : String) : FilterState :=
  { division := d, dc := "ALL", onlyAssigned := s.onlyAssigned }


-- ### dcOptions derivations (C5)

/-- JS `Set.add`: append the id if it is not already present (a JS `Set`
keeps insertion order and ignores repeated adds). -/
def addDcIfNew (acc : List String) (x : String) : List String :=
  if x ∈ acc then acc else acc ++ [x]

/-- The guard of the `dcOptions` memo of `src/unnamed/part_003`
(lines 29-37): skip a store only when a specific division is selected and the
store's division differs; every surviving store contributes its `dc_id`. -/
def dcCollectP3 (division : String) (f : StoreProps) : Bool :=
  if division ≠ "All" ∧ f.division ≠ division then false else true

/-- The guards of the `dcOptions` memo of `src/src/pages/HomeMap.jsx`
(lines 46-56): country, division and assignment guards, then
`if (p.dc_id) set.add(p.dc_id)` (only truthy, i.e. non-empty, ids). -/
def dcCollectHome (division : String) (onlyAssigned : Bool) (f : StoreProps) : Bool :=
  if countryRejectHome f.country then false
  else if division ≠ "All" ∧ f.division ≠ division then false
  else if onlyAssigned = true ∧ f.is_assigned ≠ some true then false
  else if f.dc_id ≠ "" then true
  else false

/-- Accumulate the distinct `dc_id`s of the stores passing `p`, in first
occurrence order (the JS `Set` built by `forEach`). -/
def collectDcIds (p : StoreProps → Bool) (ds : List StoreProps) : List String :=
  ds.foldl (fun acc f => if p f then addDcIfNew acc f.dc_id else acc) []

/-- `dcOptions` of `src/unnamed/part_003`:
`['ALL', ...Array.from(set).sort()]`. -/
def dcOptionsP3 (ds : List StoreProps) (division : String) : List String :=
  "ALL" :: List.insertionSort (· ≤ ·) (collectDcIds (dcCollectP3 division) ds)

/-- `dcOptions` of `src/src/pages/HomeMap.jsx` (depends on `division` and
`onlyAssigned`, never on the current `dc`). -/
def dcOptionsHome (ds : List StoreProps) (division : String) (onlyAssigned : Bool) :
    List String :=
  "ALL" :: List.insertionSort (· ≤ ·) (collectDcIds (dcCollectHome division onlyAssigned) ds)


-- ### DC roll-up health (C7)

/-- One iteration of the `buildDcRollups` loop of `src/unnamed/part_006`
(lines 353-365): the accumulator map gets, at the store's `dc_id`, its
running sum increased by the store's health and its count by one. -/
def rollupStep (acc : String → Option (ℚ × Nat)) (f : StoreProps) :
    String → Option (ℚ × Nat) :=
  fun k =>
    if k = f.dc_id then
      some (((acc f.dc_id).getD (0, 0)).1 + f.health, ((acc f.dc_id).getD (0, 0)).2 + 1)
    else acc k

/-- The `acc` map of `buildDcRollups` after the `for` loop over all store
features (no filtering: the roll-up is computed over the full dataset). -/
def buildDcRollupsAcc (stores : List StoreProps) : String → Option (ℚ × Nat) :=
  stores.foldl rollupStep (fun _ => none)

/-- The `avg` map of `buildDcRollups`: `n ? sum / n : 0` per accumulated
`dc_id`; ids never seen stay absent. -/
def buildDcRollups (stores : List StoreProps) : String → Option ℚ :=
  fun k => (buildDcRollupsAcc stores k).map (fun p => if p.2 = 0 then 0 else p.1 / (p.2 : ℚ))

/-- `rollup_health` injected by `dcsEnriched` in `src/unnamed/part_006`
(lines 405-416): `dcHealth.get(f.properties.dc_id) ?? 0`. -/
def rollupHealth (stores : List StoreProps) (dc : String) : ℚ :=
  (buildDcRollups stores dc).getD 0


-- ### Camera Director (C2)

/-- Properties of one feature of `regions.geo.json` as read by
`fitToCurrent` in `src/Homemap.jsx`: a `type` tag ("DC" or "Division"),
a `dc_id` and a `division`. -/
structure RegionFeature where
  rtype : String
  dc_id : String
  division : String
deriving DecidableEq, Repr

/-- The single camera command issued by `fitToCurrent` per filter change:
either a `fitBounds` on a DC polygon (pitch 35, bearing 15), a `fitBounds`
on a division polygon (pitch 25, bearing 8), a fit to the bounds of the
visible stores (maxZoom 5.5), or a fit to the fixed US bounds. -/
inductive CameraCmd where
  | dcFocus (hit : RegionFeature) (pitch bearing : ℚ)
  | divisionFocus (hit : RegionFeature) (pitch bearing : ℚ)
  | fitVisibleStores (stores : List StoreProps)
  | national
deriving DecidableEq, Repr

/-- The DC lookup of `fitToCurrent` (`src/Homemap.jsx` line 600):
`regionsGeo.features.find(f => f.properties.type==='DC' && f.properties.dc_id===dc)`. -/
def findDcRegion (regions : List RegionFeature) (dc : String) : Option RegionFeature :=
  regions.find? (fun f => f.rtype == "DC" && f.dc_id == dc)

/-- The division lookup of `fitToCurrent` (`src/Homemap.jsx` line 611). -/
def findDivisionRegion (regions : List RegionFeature) (div : String) : Option RegionFeature :=
  regions.find? (fun f => f.rtype == "Division" && f.division == div)

/-- `fitToCurrent(map, storesFC, div, dc)` of `src/Homemap.jsx`
(lines 595-628), reduced to the camera target it selects: DC polygon first
(when `dc !== 'ALL'` and the record exists), then division polygon (when
`div !== 'All'` and the record exists), then the visible stores when
non-empty, else the fixed US bounds. -/
def fitToCurrent (regions : List RegionFeature) (stores : List StoreProps)
    (div dc : String) : CameraCmd :=
  match (if dc ≠ "ALL" then findDcRegion regions dc else none) with
  | some hit => CameraCmd.dcFocus hit 35 15
  | none =>
    match (if div ≠ "All" then findDivisionRegion regions div else none) with
    | some hit => CameraCmd.divisionFocus hit 25 8
    | none =>
      if stores.isEmpty then CameraCmd.national else CameraCmd.fitVisibleStores stores

-- ### LOD controller (C4)

/-- Store-layer zoom threshold `Z_STORES = 6.6` of `src/Homemap.jsx`
(line 24). -/
def Z_STORES : ℚ := 6.6

/-- LOD-relevant view state: whether the stores layer is visible and which
DC is currently selected. -/
structure LODState where
  storesVisible : Bool
  selectedDc : String
deriving DecidableEq, Repr

/-- `showStores(map, visible)` of `src/Homemap.jsx` (lines 372-375): sets the
stores layer visibility, nothing else. -/
def showStores (s : LODState) (visible : Bool) : LODState :=
  { s with storesVisible := visible }

/-- The `zoomend` handler of `src/Homemap.jsx` (lines 208-211):
`showStores(map, z >= Z_STORES)` — the decision uses only the zoom. -/
def onZoomend (s : LODState) (z : ℚ) : LODState :=
  showStores s (decide (Z_STORES ≤ z))

-- ### Render surface readiness (C3)

/-- An event reaching the map adapter: a filter change (re-running the data
push effect) or the engine's readiness ('load') event. -/
inductive MapEvent where
  | filterChange (fs : FilterState)
  | ready
deriving DecidableEq, Repr

/-- Adapter state of the `src/unnamed/part_000` variant (lines 153-178):
`ready` mirrors `map.isStyleLoaded()`, `pending` is the filter state captured
by the currently registered `once('load')` listener (the effect cleanup
removes the previous listener before a new one is registered), `surface` is
the data last pushed into the 'stores' source. -/
structure DeferAdapter where
  ready : Bool
  pending : Option FilterState
  surface : Option (List StoreProps)
deriving DecidableEq, Repr

/-- One event step of the `part_000` push effect: when the style is loaded a
filter change pushes immediately (`apply()`); otherwise the change replaces
the pending `once('load')` listener.  On `load` the init-effect handler first
adds the source with its captured initial data, then the pending listener
(if any) pushes its captured derived data. -/
def stepDefer (derive : FilterState → List StoreProps) (init : FilterState)
    (s : DeferAdapter) : MapEvent → DeferAdapter
  | MapEvent.filterChange fs =>
    if s.ready then { s with surface := some (derive fs) }
    else { s with pending := some fs }
  | MapEvent.ready =>
    { ready := true, pending := none,
      surface := some (derive (s.pending.getD init)) }

/-- Initial adapter state at mount: not ready, the mount run of the effect
has registered a listener capturing the initial filter state, nothing pushed. -/
def initDefer (init : FilterState) : DeferAdapter :=
  { ready := false, pending := some init, surface := none }

def runDefer (derive : FilterState → List StoreProps) (init : FilterState)
    (events : List MapEvent) : DeferAdapter :=
  events.foldl (stepDefer derive init) (initDefer init)

/-- Adapter state of the `src/src/pages/HomeMap.jsx` variant (lines 174-186):
its push effect returns early when `!map.isStyleLoaded()`, registering
nothing. -/
structure DropAdapter where
  ready : Bool
  surface : Option (List StoreProps)
deriving DecidableEq, Repr

/-- One event step of the `HomeMap.jsx` push effect: a pre-ready filter
change is dropped; on `load` the `onStyleLoaded` handler adds the source with
the `filteredGeo` captured when the map was created. -/
def stepDrop (derive : FilterState → List StoreProps) (init : FilterState)
    (s : DropAdapter) : MapEvent → DropAdapter
  | MapEvent.filterChange fs =>
    if s.ready then { s with surface := some (derive fs) } else s
  | MapEvent.ready => { ready := true, surface := some (derive init) }

def runDrop (derive : FilterState → List StoreProps) (init : FilterState)
    (events : List MapEvent) : DropAdapter :=
  events.foldl (stepDrop derive init) { ready := false, surface := none }

-- ### ensure-sources-and-layers (C9)

/-- The style-owned collections of a map instance: its sources (id with the
GeoJSON data they were created with) and its layer ids, plus whether
`map.getStyle()` is available. -/
structure MapStyle where
  styleOk : Bool
  sources : List (String × List StoreProps)
  layers : List String
deriving DecidableEq, Repr

/-- `map.getSource(id)`. -/
def getSource (m : MapStyle) (id : String) : Option (List StoreProps) :=
  (m.sources.find? (fun p => p.1 == id)).map Prod.snd

/-- `map.addSource(id, data)`: the engine throws when the source already
exists. -/
def addSource (m : MapStyle) (id : String) (d : List StoreProps) :
    Except String MapStyle :=
  if (getSource m id).isSome then Except.error "source already exists"
  else Except.ok { m with sources := m.sources ++ [(id, d)] }

/-- `map.addLayer({id, ...})`: the engine throws when the layer already
exists. -/
def addLayer (m : MapStyle) (id : String) : Except String MapStyle :=
  if id ∈ m.layers then Except.error "layer already exists"
  else Except.ok { m with layers := m.layers ++ [id] }

/-- `if (!map.getSource(id)) map.addSource(id, data)`. -/
def ensureSource (m : MapStyle) (id : String) (d : List StoreProps) :
    Except String MapStyle :=
  if (getSource m id).isSome then Except.ok m else addSource m id d

/-- `if (!map.getLayer(id)) map.addLayer({id, ...})`. -/
def ensureLayer (m : MapStyle) (id : String) : Except String MapStyle :=
  if id ∈ m.layers then Except.ok m else addLayer m id

/-- `onStyleLoaded` of `src/src/pages/HomeMap.jsx` (lines 84-167), reduced to
its source/layer mutations: bail out when the style is unavailable, then
guardedly create the 'stores' source and the 'stores-glow' and 'stores-core'
layers. -/
def onStyleLoaded (d : List StoreProps) (m : MapStyle) : Except String MapStyle :=
  if m.styleOk = false then Except.ok m
  else
    (ensureSource m "stores" d).bind fun m1 =>
      (ensureLayer m1 "stores-glow").bind fun m2 =>
        ensureLayer m2 "stores-core"

-- ### Concrete data (spec §8 end-to-end scenario, generator-shaped records)

/-- Store A of the spec scenario: Southern / ATL, health 85.  Shaped like a
`genstores.js` record: `country` present as "USA", `assigned` written,
`is_assigned` never written. -/
def storeA : StoreProps :=
  { store_id := 1001, country := some "USA", state := some "GA",
    division := "Southern", dc_id := "ATL-DC",
    assigned := some true, is_assigned := none, health := 85 }

/-- Store B of the spec scenario: Southern / ATL, health 55. -/
def storeB : StoreProps :=
  { store_id := 1002, country := some "USA", state := some "GA",
    division := "Southern", dc_id := "ATL-DC",
    assigned := some false, is_assigned := none, health := 55 }

/-- Store C of the spec scenario: Northern / SEA, health 70. -/
def storeC : StoreProps :=
  { store_id := 1003, country := some "USA", state := some "WA",
    division := "Northern", dc_id := "SEA-DC",
    assigned := some true, is_assigned := none, health := 70 }

def sampleStores : List StoreProps := [storeA, storeB, storeC]

/-- A feature with no `country` property at all. -/
def storeNoCountry : StoreProps :=
  { store_id := 2000, country := none, state := none,
    division := "Southern", dc_id := "ATL-DC",
    assigned := some true, is_assigned := some true, health := 90 }

/-- A feature whose `country` is present and differs from "USA". -/
def storeCanada : StoreProps :=
  { store_id := 2001, country := some "CAN", state := none,
    division := "Northern", dc_id := "SEA-DC",
    assigned := some true, is_assigned := some true, health := 90 }

/-- Default filter state at view mount. -/
def fsDefault : FilterState := { division := "All", dc := "ALL", onlyAssigned := false }

/-- Default selection with the assigned-only toggle on. -/
def fsAssigned : FilterState := { division := "All", dc := "ALL", onlyAssigned := true }

/-- Northern division selected. -/
def fsNorthern : FilterState := { division := "Northern", dc := "ALL", onlyAssigned := false }

/-- A regions dataset holding only the Southern division polygon (no DC
features), used to probe the camera precedence. -/
def regionsSouthOnly : List RegionFeature :=
  [{ rtype := "Division", dc_id := "NONE", division := "Southern" }]

/-- A regions dataset holding a single DC polygon record. -/
def regionsAtlDc : List RegionFeature :=
  [{ rtype := "DC", dc_id := "ATL-DC", division := "Southern" }]

-- ## Helper lemmas

-- ### helper lemmas on the filter predicates

lemma keepPart006_eq_true_iff (fs : FilterState) (f : StoreProps) :
    keepPart006 fs f = true ↔ f.country = some "USA" ∧ specThreePred fs f := by
  obtain ⟨fd, fc, foa⟩ := fs
  unfold keepPart006 specThreePred
  cases foa <;>
    split_ifs with h1 h2 h3 h4 <;>
      simp_all <;> tauto

lemma mem_filteredStoresP6_iff (ds : List StoreProps) (fs : FilterState) (f : StoreProps) :
    f ∈ filteredStoresP6 ds fs ↔ f ∈ ds ∧ f.country = some "USA" ∧ specThreePred fs f := by
  unfold filteredStoresP6
  rw [List.mem_filter, keepPart006_eq_true_iff]

lemma keepHome_eq_true_iff (fs : FilterState) (f : StoreProps) :
    keepHome fs f = true ↔ countryRejectHome f.country = false ∧ specThreePredHome fs f := by
  obtain ⟨fd, fc, foa⟩ := fs
  unfold keepHome specThreePredHome
  cases foa <;>
    split_ifs with h1 h2 h3 h4 <;>
      simp_all <;> tauto

lemma mem_filteredGeoHome_iff (ds : List StoreProps) (fs : FilterState) (f : StoreProps) :
    f ∈ filteredGeoHome ds fs ↔
      f ∈ ds ∧ countryRejectHome f.country = false ∧ specThreePredHome fs f := by
  unfold filteredGeoHome
  rw [List.mem_filter, keepHome_eq_true_iff]

lemma mem_addDcIfNew (acc : List String) (x y : String) :
    y ∈ addDcIfNew acc x ↔ y ∈ acc ∨ y = x := by
  unfold addDcIfNew
  split_ifs with h <;> simp_all

lemma nodup_addDcIfNew (acc : List String) (x : String) (h : acc.Nodup) :
    (addDcIfNew acc x).Nodup := by
  unfold addDcIfNew
  split_ifs with hx
  · exact h
  · simpa [List.nodup_append] using ⟨h, hx⟩

lemma mem_collectDcIds_go (p : StoreProps → Bool) (l : List StoreProps) :
    ∀ (acc : List String) (x : String),
      x ∈ l.foldl (fun acc f => if p f then addDcIfNew acc f.dc_id else acc) acc ↔
        x ∈ acc ∨ ∃ f ∈ l, p f = true ∧ f.dc_id = x := by
  induction l with
  | nil => intro acc x; simp
  | cons f t ih =>
    intro acc x
    simp only [List.foldl_cons, ih, List.mem_cons]
    by_cases hp : p f
    · simp only [hp, if_pos, mem_addDcIfNew]
      constructor
      · rintro (⟨hx | rfl⟩ | ⟨g, hg, hpg, rfl⟩)
        · exact Or.inl hx
        · exact Or.inr ⟨f, Or.inl rfl, hp, rfl⟩
        · exact Or.inr ⟨g, Or.inr hg, hpg, rfl⟩
      · rintro (hx | ⟨g, (rfl | hg), hpg, rfl⟩)
        · exact Or.inl (Or.inl hx)
        · exact Or.inl (Or.inr rfl)
        · exact Or.inr ⟨g, hg, hpg, rfl⟩
    · simp only [hp, if_neg, Bool.false_eq_true, not_false_iff]
      constructor
      · rintro (hx | ⟨g, hg, hpg, rfl⟩)
        · exact Or.inl hx
        · exact Or.inr ⟨g, Or.inr hg, hpg, rfl⟩
      · rintro (hx | ⟨g, (rfl | hg), hpg, rfl⟩)
        · exact Or.inl hx
        · exact absurd hpg (by simp [hp])
        · exact Or.inr ⟨g, hg, hpg, rfl⟩

lemma mem_collectDcIds (p : StoreProps → Bool) (ds : List StoreProps) (x : String) :
    x ∈ collectDcIds p ds ↔ ∃ f ∈ ds, p f = true ∧ f.dc_id = x := by
  unfold collectDcIds
  rw [mem_collectDcIds_go]
  simp

lemma nodup_collectDcIds_go (p : StoreProps → Bool) (l : List StoreProps) :
    ∀ acc : List String, acc.Nodup →
      (l.foldl (fun acc f => if p f then addDcIfNew acc f.dc_id else acc) acc).Nodup := by
  induction l with
  | nil => intro acc h; simpa using h
  | cons f t ih =>
    intro acc h
    simp only [List.foldl_cons]
    by_cases hp : p f
    · simp only [hp, if_pos]
      exact ih _ (nodup_addDcIfNew acc f.dc_id h)
    · simp only [hp, if_neg, Bool.false_eq_true, not_false_iff]
      exact ih _ h

lemma nodup_collectDcIds (p : StoreProps → Bool) (ds : List StoreProps) :
    (collectDcIds p ds).Nodup :=
  nodup_collectDcIds_go p ds [] List.nodup_nil

lemma foldl_rollupStep_apply (l : List StoreProps) :
    ∀ (acc : String → Option (ℚ × Nat)) (k : String),
      l.foldl rollupStep acc k =
        if l.filter (fun f => f.dc_id == k) = [] then acc k
        else
          some (((acc k).getD (0, 0)).1 +
              ((l.filter (fun f => f.dc_id == k)).map StoreProps.health).sum,
            ((acc k).getD (0, 0)).2 + (l.filter (fun f => f.dc_id == k)).length) := by
  induction l with
  | nil => intro acc k; simp
  | cons f t ih =>
    intro acc k
    rw [List.foldl_cons, ih (rollupStep acc f) k, List.filter_cons]
    by_cases hfk : f.dc_id = k
    · have hbeq : (f.dc_id == k) = true := by simp [hfk]
      have hstep : rollupStep acc f k =
          some (((acc k).getD (0, 0)).1 + f.health, ((acc k).getD (0, 0)).2 + 1) := by
        simp [rollupStep, hfk]
      rw [hbeq, if_pos rfl, hstep]
      by_cases hemp : t.filter (fun g => g.dc_id == k) = []
      · rw [if_pos hemp, hemp]
        simp
      · rw [if_neg hemp, if_neg (by simp : ¬(f :: t.filter (fun g => g.dc_id == k) = []))]
        simp only [Option.getD_some, List.map_cons, List.sum_cons, List.length_cons,
          Prod.mk.injEq, Option.some.injEq]
        constructor
        · ring
        · omega
    · have hbeq : (f.dc_id == k) = false := by simp [hfk]
      have hstep : rollupStep acc f k = acc k := by
        unfold rollupStep
        rw [if_neg (fun h => hfk h.symm)]
      rw [hbeq, hstep]
      simp only [Bool.false_eq_true, if_false]

lemma dcCollectP3_eq_true_iff (d : String) (f : StoreProps) :
    dcCollectP3 d f = true ↔ (d = "All" ∨ f.division = d) := by
  unfold dcCollectP3
  split_ifs with h
  · simp_all
  · simp_all
    tauto

lemma dcCollectHome_false_of_no_assignment (d : String) (f : StoreProps)
    (h : f.is_assigned = none) : dcCollectHome d true f = false := by
  unfold dcCollectHome
  split_ifs with h1 h2 h3 h4 <;> simp_all

lemma collectDcIds_eq_nil (p : StoreProps → Bool) (ds : List StoreProps)
    (h : ∀ f ∈ ds, p f = false) : collectDcIds p ds = [] := by
  rw [List.eq_nil_iff_forall_not_mem]
  intro x hx
  rw [mem_collectDcIds] at hx
  obtain ⟨f, hf, hpf, -⟩ := hx
  rw [h f hf] at hpf
  cases hpf


lemma foldDefer_filterChanges_ready (derive : FilterState → List StoreProps)
    (init : FilterState) (l : List FilterState) :
    ∀ s : DeferAdapter, s.ready = false →
      ((l.map MapEvent.filterChange).foldl (stepDefer derive init) s).ready = false := by
  induction l with
  | nil => intro s h; simpa using h
  | cons fs t ih =>
    intro s h
    simp only [List.map_cons, List.foldl_cons]
    have hstep : stepDefer derive init s (MapEvent.filterChange fs)
        = { s with pending := some fs } := by
      simp [stepDefer, h]
    rw [hstep]
    exact ih _ h

lemma foldDrop_filterChanges_id (derive : FilterState → List StoreProps)
    (init : FilterState) (l : List FilterState) :
    ∀ s : DropAdapter, s.ready = false →
      (l.map MapEvent.filterChange).foldl (stepDrop derive init) s = s := by
  induction l with
  | nil => intro s _; rfl
  | cons fs t ih =>
    intro s h
    simp only [List.map_cons, List.foldl_cons]
    have hstep : stepDrop derive init s (MapEvent.filterChange fs) = s := by
      simp [stepDrop, h]
    rw [hstep]
    exact ih _ h


lemma ensureSource_spec (m : MapStyle) (id : String) (d : List StoreProps) :
    ∃ m2, ensureSource m id d = Except.ok m2
      ∧ (getSource m2 id).isSome
      ∧ m2.styleOk = m.styleOk ∧ m2.layers = m.layers
      ∧ ((m.sources.map Prod.fst).Nodup → (m2.sources.map Prod.fst).Nodup) := by
  by_cases h : (getSource m id).isSome
  · exact ⟨m, by simp [ensureSource, h], h, rfl, rfl, fun x => x⟩
  · have hfind : m.sources.find? (fun p => p.1 == id) = none := by
      rcases hf : m.sources.find? (fun p => p.1 == id) with _ | v
      · exact hf
      · exact absurd (by unfold getSource; rw [hf]; rfl) h
    have hnotmem : id ∉ m.sources.map Prod.fst := by
      intro hm
      obtain ⟨p, hp, hpe⟩ := List.mem_map.mp hm
      have hnp := List.find?_eq_none.mp hfind p hp
      simp [hpe] at hnp
    refine ⟨{ m with sources := m.sources ++ [(id, d)] }, ?_, ?_, rfl, rfl, ?_⟩
    · unfold ensureSource addSource
      rw [if_neg h, if_neg h]
    · show ((m.sources ++ [(id, d)]).find? (fun p => p.1 == id)).map Prod.snd |>.isSome
      rw [List.find?_append, hfind]
      simp [List.find?]
    · intro hnd
      show ((m.sources ++ [(id, d)]).map Prod.fst).Nodup
      rw [List.map_append]
      simp [List.nodup_append, hnd, hnotmem]

lemma ensureLayer_spec (m : MapStyle) (id : String) :
    ∃ m2, ensureLayer m id = Except.ok m2
      ∧ id ∈ m2.layers
      ∧ m2.styleOk = m.styleOk ∧ m2.sources = m.sources
      ∧ (∀ j, j ∈ m.layers → j ∈ m2.layers)
      ∧ (m.layers.Nodup → m2.layers.Nodup) := by
  by_cases h : id ∈ m.layers
  · exact ⟨m, by simp [ensureLayer, h], h, rfl, rfl, fun j hj => hj, fun x => x⟩
  · refine ⟨{ m with layers := m.layers ++ [id] }, ?_, ?_, rfl, rfl, ?_, ?_⟩
    · unfold ensureLayer addLayer
      rw [if_neg h, if_neg h]
    · simp
    · intro j hj
      simp [hj]
    · intro hnd
      simp [List.nodup_append, hnd, h]

lemma ensureSource_of_present (m : MapStyle) (id : String) (d : List StoreProps)
    (h : (getSource m id).isSome) : ensureSource m id d = Except.ok m := by
  simp [ensureSource, h]

lemma ensureLayer_of_mem (m : MapStyle) (id : String) (h : id ∈ m.layers) :
    ensureLayer m id = Except.ok m := by
  simp [ensureLayer, h]


-- ## Claim theorems

/-- C1 (counterexample): with `onlyAssigned = true`, store A satisfies all
three spec predicates (its `assigned` property is `true`) and is in the
dataset, yet `filteredGeo` of `src/src/pages/HomeMap.jsx` omits it, because
that variant reads the `is_assigned` property, which the static dataset never
defines.  So `visibleStores` is not exactly the three-predicate subset. -/
theorem c1_counterexample :
    specThreePred fsAssigned storeA ∧ storeA ∈ [storeA]
      ∧ storeA ∉ filteredGeoHome [storeA] fsAssigned := by
  decide

/-- C1 (amended): over the static store dataset (every feature carries
`country = "USA"` and no `is_assigned`), the `part_006` derivation
`filteredStores` is exactly the set of features satisfying the three
predicates (division match or All, dc match or ALL, not-onlyAssigned or
assigned = true); the `HomeMap.jsx` derivation `filteredGeo` instead returns
the empty set whenever `onlyAssigned` is true, since its assignment check
reads the absent `is_assigned` property. -/
theorem visibleStores_three_predicate_characterization :
    ∀ (ds : List StoreProps) (fs : FilterState),
      ((∀ f ∈ ds, f.country = some "USA") →
        ∀ f, f ∈ filteredStoresP6 ds fs ↔ f ∈ ds ∧ specThreePred fs f)
      ∧ ((∀ f ∈ ds, f.is_assigned = none) → fs.onlyAssigned = true →
          filteredGeoHome ds fs = []) := by
  intro ds fs
  constructor
  · intro hUSA f
    rw [mem_filteredStoresP6_iff]
    constructor
    · rintro ⟨hf, -, hp⟩
      exact ⟨hf, hp⟩
    · rintro ⟨hf, hp⟩
      exact ⟨hf, hUSA f hf, hp⟩
  · intro hNA hOA
    unfold filteredGeoHome
    rw [List.filter_eq_nil_iff]
    intro f hf hk
    rw [keepHome_eq_true_iff] at hk
    rcases hk.2.2.2 with h | h
    · rw [hOA] at h
      cases h
    · rw [hNA f hf] at h
      cases h

/-- C1 (witness of the amended claim). -/
theorem visibleStores_three_predicate_witness :
    (storeA ∈ filteredStoresP6 sampleStores fsDefault ↔
      storeA ∈ sampleStores ∧ specThreePred fsDefault storeA)
    ∧ filteredGeoHome sampleStores fsAssigned = [] := by
  refine ⟨(visibleStores_three_predicate_characterization sampleStores fsDefault).1
      (by decide) storeA,
    (visibleStores_three_predicate_characterization sampleStores fsAssigned).2
      (by decide) rfl⟩

/-- C4 (code bug): the `zoomend` handler of `src/Homemap.jsx` sets the store
layer visibility from the zoom alone (`showStores(map, z >= Z_STORES)`), so
a zoom-change to 5 (below the 6.6 threshold) hides the Store layer even
though the DC "ATL-DC" is still selected — contradicting the specified
"DC selection overrides the zoom threshold" rule. -/
theorem zoomend_hides_stores_despite_dc :
    (onZoomend { storesVisible := true, selectedDc := "ATL-DC" } 5).storesVisible = false
      ∧ ("ATL-DC" : String) ≠ "ALL"
      ∧ (5 : ℚ) < Z_STORES := by
  refine ⟨?_, by decide, ?_⟩
  · simp only [onZoomend, showStores, Z_STORES, decide_eq_false_iff_not, not_le]
    norm_num
  · unfold Z_STORES
    norm_num

/-- C6: `onDivisionClick` always sets `dc` to "ALL", and "ALL" is always a
member of the dcOptions derived from the new division (it is the head of the
list), so no stale `dc` outside the new options can persist through a
division change. -/
theorem onDivisionClick_resets_dc :
    ∀ (ds : List StoreProps) (s : FilterState) (d : String),
      (onDivisionClick s d).dc = "ALL"
        ∧ (onDivisionClick s d).division = d
        ∧ (onDivisionClick s d).dc ∈ dcOptionsP3 ds (onDivisionClick s d).division := by
  intro ds s d
  exact ⟨rfl, rfl, by simp [dcOptionsP3, onDivisionClick]⟩

/-- C7: for every DC id that occurs in the dataset, the `buildDcRollups`
value enriched into the DC features equals the arithmetic mean of the health
of the stores whose `dc_id` matches. -/
theorem rollupHealth_is_mean :
    ∀ (stores : List StoreProps) (dc : String),
      stores.filter (fun f => f.dc_id == dc) ≠ [] →
      rollupHealth stores dc =
        ((stores.filter (fun f => f.dc_id == dc)).map StoreProps.health).sum /
          ((stores.filter (fun f => f.dc_id == dc)).length : ℚ) := by
  intro stores dc hne
  unfold rollupHealth buildDcRollups buildDcRollupsAcc
  rw [foldl_rollupStep_apply, if_neg hne]
  have hlen : (stores.filter (fun f => f.dc_id == dc)).length ≠ 0 := by
    simpa [List.length_eq_zero] using hne
  simp [hlen]

/-- C7 (witness): for the spec scenario stores (ATL healths 85 and 55,
SEA health 70), the ATL roll-up is 70. -/
theorem rollupHealth_atl_witness :
    rollupHealth sampleStores "ATL-DC" = 70 := by
  have h := rollupHealth_is_mean sampleStores "ATL-DC" (by decide)
  have hfil : sampleStores.filter (fun f => f.dc_id == "ATL-DC") = [storeA, storeB] := rfl
  rw [h, hfil]
  norm_num [storeA, storeB]

/-- C10 (counterexample): a feature with no `country` property satisfies the
three spec predicates under the default filter and is visible under the
`HomeMap.jsx` derivation, but the `part_006` derivation (`p.country !==
'USA'`) excludes it — so "a feature with no country property passes the
country check and can be visible" does not hold of the store derivation in
`part_006`. -/
theorem c10_counterexample :
    storeNoCountry.country = none
      ∧ specThreePred fsDefault storeNoCountry
      ∧ storeNoCountry ∈ filteredGeoHome [storeNoCountry] fsDefault
      ∧ storeNoCountry ∉ filteredStoresP6 [storeNoCountry] fsDefault := by
  decide

/-- C10 (amended): a store whose `country` is present and differs from "USA"
(and is non-empty, so it is truthy in JS) is excluded by both derivations;
a feature with no `country` passes the country check of the `HomeMap.jsx`
derivation (it is visible exactly when the remaining predicates hold) but is
always excluded by the `part_006` derivation, which requires
`country === 'USA'`. -/
theorem country_predicate_behaviour :
    ∀ (ds : List StoreProps) (fs : FilterState) (f : StoreProps),
      (∀ c, f.country = some c → c ≠ "USA" → c ≠ "" →
        f ∉ filteredGeoHome ds fs ∧ f ∉ filteredStoresP6 ds fs)
      ∧ (f.country = none →
          (f ∈ filteredGeoHome ds fs ↔ f ∈ ds ∧ specThreePredHome fs f))
      ∧ (f.country = none → f ∉ filteredStoresP6 ds fs) := by
  intro ds fs f
  refine ⟨?_, ?_, ?_⟩
  · intro c hc hus hemp
    constructor
    · rw [mem_filteredGeoHome_iff]
      rintro ⟨-, hcr, -⟩
      rw [hc] at hcr
      simp [countryRejectHome, hus, hemp] at hcr
    · rw [mem_filteredStoresP6_iff]
      rintro ⟨-, husa, -⟩
      rw [hc] at husa
      simp at husa
      exact hus husa
  · intro hc
    rw [mem_filteredGeoHome_iff]
    have hcr : countryRejectHome f.country = false := by
      rw [hc]
      rfl
    simp [hcr]
  · intro hc
    rw [mem_filteredStoresP6_iff]
    rintro ⟨-, husa, -⟩
    rw [hc] at husa
    cases husa

/-- C10 (witness of the amended claim). -/
theorem country_predicate_witness :
    (storeCanada ∉ filteredGeoHome [storeCanada] fsDefault
      ∧ storeCanada ∉ filteredStoresP6 [storeCanada] fsDefault)
    ∧ storeNoCountry ∉ filteredStoresP6 [storeNoCountry] fsDefault := by
  refine ⟨(country_predicate_behaviour [storeCanada] fsDefault storeCanada).1
      "CAN" rfl (by decide) (by decide),
    (country_predicate_behaviour [storeNoCountry] fsDefault storeNoCountry).2.2 rfl⟩

/-- C5 (counterexample): `dcOptions` of `src/src/pages/HomeMap.jsx` also
filters by the assignment guard (reading the dataset-absent `is_assigned`),
so with the assigned-only toggle on it omits "ATL-DC" even though a Southern
store with that `dc_id` exists — the list is not determined by the division
alone. -/
theorem c5_counterexample :
    storeA.division = "Southern" ∧ storeA.dc_id = "ATL-DC"
      ∧ "ATL-DC" ∉ dcOptionsHome [storeA] "Southern" true := by
  decide

/-- C5 (amended): the `part_003` `dcOptions` is exactly "ALL" followed by
the sorted, de-duplicated `dc_id`s of the stores of division `d` (all stores
when `d` = "All"), and it ignores the current `dc` selection (it takes no
`dc` input).  The `HomeMap.jsx` `dcOptions` additionally filters by country
and, when the assigned-only toggle is on, by the absent `is_assigned`
property, collapsing to just ["ALL"] over the static dataset. -/
theorem dcOptions_characterization :
    ∀ (ds : List StoreProps) (d : String),
      (dcOptionsP3 ds d).head? = some "ALL"
      ∧ List.Sorted (· ≤ ·) (dcOptionsP3 ds d).tail
      ∧ (dcOptionsP3 ds d).tail.Nodup
      ∧ (∀ x, x ∈ (dcOptionsP3 ds d).tail ↔
          ∃ f ∈ ds, (d = "All" ∨ f.division = d) ∧ f.dc_id = x)
      ∧ ((∀ f ∈ ds, f.dc_id ≠ "ALL") → (dcOptionsP3 ds d).Nodup)
      ∧ ((∀ f ∈ ds, f.is_assigned = none) → dcOptionsHome ds d true = ["ALL"]) := by
  intro ds d
  have hperm := List.perm_insertionSort (α := String) (· ≤ ·)
    (collectDcIds (dcCollectP3 d) ds)
  have hmem : ∀ x, x ∈ (dcOptionsP3 ds d).tail ↔
      ∃ f ∈ ds, (d = "All" ∨ f.division = d) ∧ f.dc_id = x := by
    intro x
    show x ∈ List.insertionSort (· ≤ ·) (collectDcIds (dcCollectP3 d) ds) ↔ _
    rw [hperm.mem_iff, mem_collectDcIds]
    constructor
    · rintro ⟨f, hf, hpf, rfl⟩
      exact ⟨f, hf, (dcCollectP3_eq_true_iff d f).mp hpf, rfl⟩
    · rintro ⟨f, hf, hpf, rfl⟩
      exact ⟨f, hf, (dcCollectP3_eq_true_iff d f).mpr hpf, rfl⟩
  refine ⟨rfl, List.sorted_insertionSort _ _, (hperm.nodup_iff).mpr (nodup_collectDcIds _ ds),
    hmem, ?_, ?_⟩
  · intro hall
    unfold dcOptionsP3
    rw [List.nodup_cons]
    refine ⟨?_, (hperm.nodup_iff).mpr (nodup_collectDcIds _ ds)⟩
    intro hmem2
    obtain ⟨f, hf, -, hid⟩ := (hmem "ALL").mp hmem2
    exact hall f hf hid
  · intro hNA
    unfold dcOptionsHome
    rw [collectDcIds_eq_nil _ _
      (fun f hf => dcCollectHome_false_of_no_assignment d f (hNA f hf))]
    rfl

/-- C5 (witness of the amended claim). -/
theorem dcOptions_characterization_witness :
    (dcOptionsP3 sampleStores "Southern").Nodup
      ∧ dcOptionsHome sampleStores "Southern" true = ["ALL"] := by
  exact ⟨(dcOptions_characterization sampleStores "Southern").2.2.2.2.1 (by decide),
    (dcOptions_characterization sampleStores "Southern").2.2.2.2.2 (by decide)⟩

/-- C8: `healthToColor` is a pure total function mapping health ≥ 80 to the
healthy color, 60 ≤ health < 80 to the watch color and health < 60 to the
at-risk color, with the boundary values 80 → healthy and 60 → watch
(and 79.999 → watch, 59.999 → at-risk). -/
theorem healthToColor_bands :
    (∀ h : ℚ,
      (80 ≤ h ↔ healthToColor h = "#28F7A0")
      ∧ (60 ≤ h ∧ h < 80 ↔ healthToColor h = "#FFA54C")
      ∧ (h < 60 ↔ healthToColor h = "#FF5A72"))
    ∧ healthToColor 80 = "#28F7A0"
    ∧ healthToColor 79.999 = "#FFA54C"
    ∧ healthToColor 60 = "#FFA54C"
    ∧ healthToColor 59.999 = "#FF5A72" := by
  constructor
  · intro h
    unfold healthToColor
    by_cases h1 : (80 : ℚ) ≤ h
    · rw [if_pos h1]
      refine ⟨⟨fun _ => rfl, fun _ => h1⟩, ?_, ?_⟩
      · constructor
        · rintro ⟨-, hlt⟩
          exact absurd h1 (not_le.mpr hlt)
        · intro he
          exact absurd he (by decide)
      · constructor
        · intro hlt
          linarith
        · intro he
          exact absurd he (by decide)
    · rw [if_neg h1]
      by_cases h2 : (60 : ℚ) ≤ h
      · rw [if_pos h2]
        refine ⟨?_, ⟨fun _ => rfl, fun _ => ⟨h2, not_le.mp h1⟩⟩, ?_⟩
        · constructor
          · intro hge
            exact absurd hge h1
          · intro he
            exact absurd he (by decide)
        · constructor
          · intro hlt
            linarith
          · intro he
            exact absurd he (by decide)
      · rw [if_neg h2]
        refine ⟨?_, ?_, ⟨fun _ => rfl, fun _ => not_le.mp h2⟩⟩
        · constructor
          · intro hge
            exact absurd (le_trans (by norm_num) hge) h2
          · intro he
            exact absurd he (by decide)
        · constructor
          · rintro ⟨hge, -⟩
            exact absurd hge h2
          · intro he
            exact absurd he (by decide)
  · refine ⟨?_, ?_, ?_, ?_⟩ <;> unfold healthToColor
    · rw [if_pos (by norm_num)]
    · rw [if_neg (by norm_num), if_pos (by norm_num)]
    · rw [if_neg (by norm_num), if_pos (by norm_num)]
    · rw [if_neg (by norm_num), if_neg (by norm_num)]

/-- C2 (counterexample): with a regions dataset holding only the Southern
division polygon, the filter state (division "Southern", dc "PHX-DC") makes
`fitToCurrent` frame the division region even though dc ≠ "ALL" (the DC
lookup misses), so the division region is not framed only when dc = "ALL". -/
theorem c2_counterexample :
    fitToCurrent regionsSouthOnly [] "Southern" "PHX-DC"
        = CameraCmd.divisionFocus
            { rtype := "Division", dc_id := "NONE", division := "Southern" } 25 8
      ∧ ("PHX-DC" : String) ≠ "ALL" := by
  exact ⟨rfl, by decide⟩

/-- C2 (amended): when dc ≠ "ALL" and a DC region record exists, the camera
frames that DC polygon at pitch 35 / bearing 15, independently of the
division; when the DC branch does not fire (dc = "ALL" or no record) and
division ≠ "All" with an existing division polygon, the division region is
framed (pitch 25 / bearing 8) — including when dc ≠ "ALL" names a missing
DC; otherwise the camera fits the visible stores when non-empty, and the
fixed national bounds only when the visible set is empty. -/
theorem fitToCurrent_precedence :
    ∀ (regions : List RegionFeature) (stores : List StoreProps) (div dc : String),
      (dc ≠ "ALL" → ∀ hit, findDcRegion regions dc = some hit →
        fitToCurrent regions stores div dc = CameraCmd.dcFocus hit 35 15
          ∧ ∀ div2, fitToCurrent regions stores div2 dc = CameraCmd.dcFocus hit 35 15)
      ∧ ((dc = "ALL" ∨ findDcRegion regions dc = none) → div ≠ "All" →
          ∀ hit, findDivisionRegion regions div = some hit →
            fitToCurrent regions stores div dc = CameraCmd.divisionFocus hit 25 8)
      ∧ ((dc = "ALL" ∨ findDcRegion regions dc = none) →
          (div = "All" ∨ findDivisionRegion regions div = none) →
          fitToCurrent regions stores div dc =
            if stores.isEmpty then CameraCmd.national
            else CameraCmd.fitVisibleStores stores) := by
  intro regions stores div dc
  have hdcnone : (dc = "ALL" ∨ findDcRegion regions dc = none) →
      (if dc ≠ "ALL" then findDcRegion regions dc else none) = none := by
    rintro (h | h)
    · rw [if_neg (by simp [h])]
    · split_ifs <;> simp [h]
  have hdivnone : (div = "All" ∨ findDivisionRegion regions div = none) →
      (if div ≠ "All" then findDivisionRegion regions div else none) = none := by
    rintro (h | h)
    · rw [if_neg (by simp [h])]
    · split_ifs <;> simp [h]
  refine ⟨?_, ?_, ?_⟩
  · intro hdc hit hf
    have hsel : (if dc ≠ "ALL" then findDcRegion regions dc else none) = some hit := by
      rw [if_pos hdc, hf]
    constructor
    · unfold fitToCurrent
      rw [hsel]
    · intro div2
      unfold fitToCurrent
      rw [hsel]
  · intro hnone hdiv hit hf
    have hsel : (if div ≠ "All" then findDivisionRegion regions div else none) = some hit := by
      rw [if_pos hdiv, hf]
    unfold fitToCurrent
    rw [hdcnone hnone, hsel]
  · intro hnone hdivn
    unfold fitToCurrent
    rw [hdcnone hnone, hdivnone hdivn]

/-- C2 (witness of the amended claim): with a DC record present, the DC is
framed even while a different division is selected. -/
theorem fitToCurrent_precedence_witness :
    fitToCurrent regionsAtlDc [] "Northern" "ATL-DC"
      = CameraCmd.dcFocus
          { rtype := "DC", dc_id := "ATL-DC", division := "Southern" } 35 15 := by
  exact ((fitToCurrent_precedence regionsAtlDc [] "Northern" "ATL-DC").1 (by decide)
    { rtype := "DC", dc_id := "ATL-DC", division := "Southern" } (by decide)).1

/-- C3 (counterexample): in the `src/src/pages/HomeMap.jsx` variant, a filter
change arriving before the surface is ready is dropped, and on readiness the
source is created with the initial snapshot — so after [change to Northern,
ready] the surface holds the initial derivation, not the derivation of the
latest filter state. -/
theorem c3_counterexample :
    (runDrop (filteredGeoHome [storeA]) fsDefault
        [MapEvent.filterChange fsNorthern, MapEvent.ready]).surface
      = some (filteredGeoHome [storeA] fsDefault)
    ∧ (runDrop (filteredGeoHome [storeA]) fsDefault
        [MapEvent.filterChange fsNorthern, MapEvent.ready]).surface
      ≠ some (filteredGeoHome [storeA] fsNorthern) := by
  decide

/-- C3 (amended): for any sequence of filter changes followed by the
readiness event, the `part_000` effect (which re-registers a `once('load')`
listener on every change and removes the previous one) defers the push and
delivers exactly the derivation of the latest filter state to the surface;
the `HomeMap.jsx` effect drops pre-ready pushes, and on readiness the surface
receives the initial snapshot captured at map creation. -/
theorem readiness_push_behaviour :
    ∀ (derive : FilterState → List StoreProps) (init : FilterState)
      (pre : List FilterState) (c : FilterState),
      (runDefer derive init
          ((pre ++ [c]).map MapEvent.filterChange ++ [MapEvent.ready])).surface
        = some (derive c)
      ∧ (runDrop derive init
          ((pre ++ [c]).map MapEvent.filterChange ++ [MapEvent.ready])).surface
        = some (derive init) := by
  intro derive init pre c
  constructor
  · unfold runDefer
    rw [List.map_append, List.foldl_append, List.foldl_append]
    have h1 : ((pre.map MapEvent.filterChange).foldl (stepDefer derive init)
        (initDefer init)).ready = false :=
      foldDefer_filterChanges_ready derive init pre (initDefer init) rfl
    simp [stepDefer, h1]
  · unfold runDrop
    rw [List.map_append, List.foldl_append, List.foldl_append]
    have h1 : (pre.map MapEvent.filterChange).foldl (stepDrop derive init)
        { ready := false, surface := none } = { ready := false, surface := none } :=
      foldDrop_filterChanges_id derive init pre { ready := false, surface := none } rfl
    rw [h1]
    simp [stepDrop]

/-- C9: `onStyleLoaded` never throws (each creation is guarded by an
existence check), a second run returns exactly the same style state as the
first (same sources, same layers), and it never duplicates a source or layer
id.  This covers the double invocation caused by listening on both
'style.load' and 'load'. -/
theorem onStyleLoaded_idempotent :
    ∀ (d : List StoreProps) (m : MapStyle),
      ∃ m2, onStyleLoaded d m = Except.ok m2
        ∧ onStyleLoaded d m2 = Except.ok m2
        ∧ ((m.sources.map Prod.fst).Nodup → m.layers.Nodup →
            (m2.sources.map Prod.fst).Nodup ∧ m2.layers.Nodup) := by
  intro d m
  by_cases hst : m.styleOk = false
  · refine ⟨m, ?_, ?_, fun a b => ⟨a, b⟩⟩
    · unfold onStyleLoaded
      rw [if_pos hst]
    · unfold onStyleLoaded
      rw [if_pos hst]
  · obtain ⟨m1, he1, hs1, hok1, hl1, hnd1⟩ := ensureSource_spec m "stores" d
    obtain ⟨mg, he2, hg2, hok2, hsrc2, hmono2, hnd2⟩ := ensureLayer_spec m1 "stores-glow"
    obtain ⟨mc, he3, hc3, hok3, hsrc3, hmono3, hnd3⟩ := ensureLayer_spec mg "stores-core"
    have hmc_style : ¬ mc.styleOk = false := by
      rw [hok3, hok2, hok1]
      exact hst
    have hsrc_mc : (getSource mc "stores").isSome := by
      have hseq : mc.sources = m1.sources := by rw [hsrc3, hsrc2]
      unfold getSource at hs1 ⊢
      rw [hseq]
      exact hs1
    have hglow_mc : "stores-glow" ∈ mc.layers := hmono3 _ hg2
    have hcore_mc : "stores-core" ∈ mc.layers := hc3
    refine ⟨mc, ?_, ?_, ?_⟩
    · unfold onStyleLoaded
      rw [if_neg hst, he1]
      simp only [Except.bind]
      rw [he2]
      simp only [Except.bind]
      exact he3
    · unfold onStyleLoaded
      rw [if_neg hmc_style, ensureSource_of_present mc "stores" d hsrc_mc]
      simp only [Except.bind]
      rw [ensureLayer_of_mem mc "stores-glow" hglow_mc]
      simp only [Except.bind]
      exact ensureLayer_of_mem mc "stores-core" hcore_mc
    · intro hs hl
      constructor
      · rw [hsrc3, hsrc2]
        exact hnd1 hs
      · refine hnd3 (hnd2 ?_)
        rw [hl1]
        exact hl

/-- C9 (witness): starting from an available empty style, the ensure routine
succeeds, a repeat run returns the identical state, and the created source
and layer ids are duplicate-free. -/
theorem onStyleLoaded_idempotent_witness :
    ∃ m2, onStyleLoaded [] { styleOk := true, sources := [], layers := [] } = Except.ok m2
      ∧ onStyleLoaded [] m2 = Except.ok m2
      ∧ (m2.sources.map Prod.fst).Nodup ∧ m2.layers.Nodup := by
  obtain ⟨m2, h1, h2, h3⟩ :=
    onStyleLoaded_idempotent [] { styleOk := true, sources := [], layers := [] }
  exact ⟨m2, h1, h2, h3 (by simp) (by simp)⟩

end Metrics
